import Mathlib

/-!
Verification development for the barter-recommendation backend
(`src/server.js`, `src/recommend.js`, `src/unnamed/part_004`,
`src/unnamed/part_005`, and the mongoose models under `src/models`).

The numeric code is embedded over `ℚ` (an exact idealization of JS numbers).
The JS `Math` library primitives (`exp`, `sin`, `cos`, `sqrt`, `atan2`, `PI`)
are external to the repository, so they are modelled as a record of rational
functions (`MathPrims`); theorems that depend on their analytic behaviour take
the needed range facts (for instance `exp x ∈ [0,1]` for `x ≤ 0`) as explicit
hypotheses, which hold of the genuine real functions.

The stateful invite/chat code (Express handlers backed by MongoDB documents)
is embedded as explicit state passing over a `Sys` record holding the invite
and chat collections; one constructor of `Op` per HTTP handler variant.
-/

/-- A geographic location `{lat, lng}` (the `gps` field of a User). -/
structure Loc where
  lat : ℚ
  lng : ℚ
deriving DecidableEq, Repr

/-- The JS `Math` primitives used by the source, as an ambient parameter of
the model.  The source calls `Math.exp`, `Math.sin`, `Math.cos`,
`Math.sqrt`, `Math.atan2` and reads `Math.PI`. -/
structure MathPrims where
  exp : ℚ → ℚ
  sin : ℚ → ℚ
  cos : ℚ → ℚ
  sqrt : ℚ → ℚ
  atan2 : ℚ → ℚ → ℚ
  pi : ℚ

/-- Embeds `haversineDistance(loc1, loc2)` — identical in `src/server.js:21`,
`src/recommend.js:2`, `src/unnamed/part_004:61` and
`src/unnamed/part_005:17` (the `|| 0` guards of part_004 are the identity on
present numeric fields): great-circle distance with Earth radius 6371 km. -/
def haversineDistance (M : MathPrims) (loc1 loc2 : Loc) : ℚ :=
  let degToRad : ℚ → ℚ := fun deg => deg * M.pi / 180
  let R : ℚ := 6371
  let dLat := degToRad (loc2.lat - loc1.lat)
  let dLng := degToRad (loc2.lng - loc1.lng)
  let lat1 := degToRad loc1.lat
  let lat2 := degToRad loc2.lat
  let a := M.sin (dLat / 2) ^ 2 + M.cos lat1 * M.cos lat2 * M.sin (dLng / 2) ^ 2
  let c := 2 * M.atan2 (M.sqrt a) (M.sqrt (1 - a))
  R * c

/-- The weight vector `{damage, rating, price, distance}`. -/
structure Weights where
  damage : ℚ
  rating : ℚ
  price : ℚ
  distance : ℚ
deriving DecidableEq, Repr

/-- An Item as read by the `userId`-keyed scorers/enumerator of
`src/server.js` and `src/unnamed/part_005` (only the fields those functions
touch). -/
structure ItemS where
  userId : String
  condition : ℚ
  rating : ℚ
  price : ℚ
  category : Option String
deriving DecidableEq, Repr

/-- A User as read by `src/server.js` (identity plus optional `gps`). -/
structure UserS where
  userId : String
  gps : Option Loc
deriving DecidableEq, Repr

/-- The options record of `src/server.js` (`priceMode ∈ {"diff","interval"}`,
`useCategory`). -/
structure OptsS where
  priceMode : String
  useCategory : Bool
deriving DecidableEq, Repr

/-- The `idx` helper inside `evaluateDesire` (`src/server.js:51`): index of
the price band `[0,500,2000,5000,10000,∞)` containing `p`; the loop falls
through to `0` for negative prices. -/
def bandIdxS (p : ℚ) : ℕ :=
  if 0 ≤ p ∧ p < 500 then 0
  else if 500 ≤ p ∧ p < 2000 then 1
  else if 2000 ≤ p ∧ p < 5000 then 2
  else if 5000 ≤ p ∧ p < 10000 then 3
  else if 10000 ≤ p then 4
  else 0

/-- The price component of `src/server.js:48-64`: `"interval"` mode buckets
both prices into bands (`maxDelta = Math.max(1, PRICE_BANDS.length - 2)`),
any other mode is `"diff"`: `1 - |Δprice| / max(prices)`, or 0 when both
prices are 0. -/
def priceScoreS (priceMode : String) (targetPrice ownPrice : ℚ) : ℚ :=
  if priceMode = "interval" then
    let a := bandIdxS ownPrice
    let b := bandIdxS targetPrice
    let maxDelta : ℚ := max 1 4
    1 - |(a : ℚ) - (b : ℚ)| / maxDelta
  else
    let priceDiff := |targetPrice - ownPrice|
    let maxPrice := max targetPrice ownPrice
    if maxPrice = 0 then 0 else 1 - priceDiff / maxPrice

/-- The distance component of `src/server.js:41-42`: `exp(-distance/10)` when
both locations are known, else 0. -/
def distScoreS (M : MathPrims) : Option Loc → Option Loc → ℚ
  | some g, some t => M.exp (-(haversineDistance M g t) / 10)
  | _, _ => 0

/-- Lines 66-80 of `src/server.js` (textually identical to
`src/unnamed/part_004:133-147`): zero the distance weight when distance is
not computable, renormalize by the effective weight sum (`|| 1` turns a zero
sum into denominator 1), and combine the four component scores. -/
def combineWeighted (w : Weights) (hasDistance : Bool) (dS rS pS distS : ℚ) : ℚ :=
  let wDist := if hasDistance then w.distance else 0
  let sum := w.damage + w.rating + w.price + wDist
  let denom := if sum = 0 then 1 else sum
  (w.damage * dS + w.rating * rS + w.price * pS + wDist * distS) / denom

/-- Embeds `evaluateDesire` of `src/server.js:37-81`: the weighted, renormalized
compatibility scorer (damage = condition/100, rating = rating/5, price by
mode, distance by exponential decay when computable).  The JS `|| 0` guards
on numeric fields are the identity on present numbers. -/
def evaluateDesireS (M : MathPrims) (user : UserS) (targetItem ownItem : ItemS)
    (userLocations : String → Option Loc) (w : Weights) (opts : OptsS) : ℚ :=
  let targetLoc := userLocations targetItem.userId
  combineWeighted w (user.gps.isSome && targetLoc.isSome)
    (targetItem.condition / 100)
    (targetItem.rating / 5)
    (priceScoreS opts.priceMode targetItem.price ownItem.price)
    (distScoreS M user.gps targetLoc)

/-- Embeds `evaluateDesire` of `src/unnamed/part_005:32-50`: the historic variant
that returns 0 when either location is missing and otherwise returns the
RAW weighted sum of the component scores, without dividing by the weight
sum. -/
def evaluateDesire5 (M : MathPrims) (user : UserS) (targetItem ownItem : ItemS)
    (userLocations : String → Option Loc) (w : Weights) : ℚ :=
  match userLocations targetItem.userId, user.gps with
  | some tLoc, some g =>
    let distanceScore := M.exp (-(haversineDistance M g tLoc) / 10)
    let damageScore := targetItem.condition / 100
    let ratingScore := targetItem.rating / 5
    let priceDiff := |targetItem.price - ownItem.price|
    let maxPrice := max targetItem.price ownItem.price
    let priceScore := if maxPrice = 0 then 0 else 1 - priceDiff / maxPrice
    w.damage * damageScore + w.rating * ratingScore +
      w.price * priceScore + w.distance * distanceScore
  | _, _ => 0

/-- Character-list version of JS `String.prototype.startsWith` used to build
substring search. -/
def leadsWith : List Char → List Char → Bool
  | [], _ => true
  | _ :: _, [] => false
  | a :: as, b :: bs => a == b && leadsWith as bs

/-- Substring occurrence of `needle` in a character list. -/
def hasSubstr (needle : List Char) : List Char → Bool
  | [] => leadsWith needle []
  | c :: rest => leadsWith needle (c :: rest) || hasSubstr needle rest

/-- JS `hay.includes(sub)`: substring containment. -/
def strIncludes (hay sub : String) : Bool :=
  hasSubstr sub.data hay.data

/-- A User as read by `src/recommend.js` (the code dereferences
`user.location` without a null check, so the location is a plain field, and
`searchHistory` is a list of keywords; `?? []` / `|| 1` guards on an absent
history coincide with the empty list). -/
structure UserR where
  userId : String
  location : Loc
  searchHistory : List String
deriving DecidableEq, Repr

/-- An Item as read by `src/recommend.js`. -/
structure ItemR where
  userId : String
  title : String
  tags : List String
  condition : ℚ
  rating : ℚ
  price : ℚ
deriving DecidableEq, Repr

/-- Embeds `evaluateDesire` of `src/recommend.js:18-54`: returns 0 outright when the
candidate owner's location is missing (`if (!targetLoc) return 0`);
otherwise combines damage, rating, keyword, price and exponential-decay
distance scores under unit weights, doubling the `preference` weight, and
divides by the total weight.  The matched-keyword Set counts each distinct
matching keyword once (`dedup`), while the base is the raw history length
(`|| 1` on the empty history). -/
def evaluateDesireRec (M : MathPrims) (user : UserR) (targetItem ownItem : ItemR)
    (userLocations : String → Option Loc) (preference : String) : ℚ :=
  match userLocations targetItem.userId with
  | none => 0
  | some targetLoc =>
    let distance := haversineDistance M user.location targetLoc
    let distanceScore := M.exp (-distance / 10)
    let damageScore := targetItem.condition / 100
    let ratingScore := targetItem.rating / 5
    let matched := user.searchHistory.dedup.filter
      (fun kw => targetItem.tags.any (fun tag => strIncludes tag kw) ||
        strIncludes targetItem.title kw)
    let keywordBase : ℚ := if user.searchHistory.length = 0 then 1
      else (user.searchHistory.length : ℚ)
    let keywordScore := (matched.length : ℚ) / keywordBase
    let priceDiff := |targetItem.price - ownItem.price|
    let maxPrice := max targetItem.price ownItem.price
    let priceScore := if maxPrice = 0 then 0 else 1 - priceDiff / maxPrice
    let wDamage : ℚ := if preference = "damage" then 2 else 1
    let wRating : ℚ := if preference = "rating" then 2 else 1
    let wKeyword : ℚ := if preference = "keyword" then 2 else 1
    let wPrice : ℚ := if preference = "price" then 2 else 1
    let wDistance : ℚ := if preference = "distance" then 2 else 1
    let totalWeight := wDamage + wRating + wKeyword + wPrice + wDistance
    (wDamage * damageScore + wRating * ratingScore + wKeyword * keywordScore +
      wPrice * priceScore + wDistance * distanceScore) / totalWeight

/-- A User as read by the email-keyed variant `src/unnamed/part_004`. -/
structure User4 where
  email : String
deriving DecidableEq, Repr

/-- An Item as read by `src/unnamed/part_004`. -/
structure Item4 where
  email : String
  title : String
  tags : List String
  condition : ℚ
  price : ℚ
  category : Option String
deriving DecidableEq, Repr

/-- The options record of `src/unnamed/part_004`
(`priceMode ∈ {"tolerance","diff"}`, `priceTol`, `useCategory`). -/
structure Opts4 where
  priceMode : String
  priceTol : ℚ
  useCategory : Bool
deriving DecidableEq, Repr

/-- The price component of `src/unnamed/part_004:103-117`: in `"tolerance"`
mode, with `tol = max(0, priceTol)`, the score is
`max(0, 1 - diff/tol)` when `tol > 0`, else 1 for exactly equal prices and
0 otherwise; any other mode is `"diff"`. -/
def priceScore4 (opts : Opts4) (priceA priceB : ℚ) : ℚ :=
  if opts.priceMode = "tolerance" then
    let tol := max 0 opts.priceTol
    let diff := |priceA - priceB|
    if tol > 0 then max 0 (1 - diff / tol) else if diff = 0 then 1 else 0
  else
    let diff := |priceA - priceB|
    let maxP := max priceA priceB
    if maxP = 0 then 0 else 1 - diff / maxP

/-- The distance component of `src/unnamed/part_004:119-131`: linear decay
`max(0, 1 - km/50)` when both locations are known, else 0. -/
def distScore4 (M : MathPrims) : Option Loc → Option Loc → ℚ
  | some ul, some tl => max 0 (1 - haversineDistance M ul tl / 50)
  | _, _ => 0

/-- Embeds `evaluateDesire` of `src/unnamed/part_004:96-148`: rating is the fixed
neutral 0.5, price by `priceScore4`, linear distance decay, and the same
weight-zeroing/renormalization block as `src/server.js` (shared here as
`combineWeighted`). -/
def evaluateDesire4 (M : MathPrims) (user : User4) (targetItem ownItem : Item4)
    (userLocations : String → Option Loc) (w : Weights) (opts : Opts4) : ℚ :=
  let userLoc := userLocations user.email
  let targetLoc := userLocations targetItem.email
  combineWeighted w (userLoc.isSome && targetLoc.isSome)
    (targetItem.condition / 100)
    (1 / 2)
    (priceScore4 opts targetItem.price ownItem.price)
    (distScore4 M userLoc targetLoc)

/-- Embeds `inferCategory` of `src/unnamed/part_004:76-84`: keyword/regex-based
category guess over the lower-cased title and tags (each regex alternative
becomes a substring test). -/
def inferCategory4 (title : String) (tags : List String) : String :=
  let t := (title ++ " " ++ String.intercalate " " tags).toLower
  if ["衣", "服", "shirt", "pants", "coat", "jacket"].any (fun k => strIncludes t k) then "clothes"
  else if ["書", "book"].any (fun k => strIncludes t k) then "book"
  else if ["電腦", "notebook", "laptop", "pc"].any (fun k => strIncludes t k) then "computer"
  else if ["手機", "phone"].any (fun k => strIncludes t k) then "phone"
  else if ["家具", "桌", "椅", "櫃", "sofa", "furniture"].any (fun k => strIncludes t k) then "furniture"
  else "other"

/-- Embeds `+x.toFixed(3)`: rounding to three decimal places (idealized over `ℚ`). -/
def round3 (x : ℚ) : ℚ := (round (1000 * x) : ℤ) / 1000

/-- Insert into a list kept non-increasing in `key` (the comparator
`(a, b) => b.matchScore - a.matchScore` used by every `result.sort` call in
the source orders records by non-increasing match score). -/
def insertDesc (key : α → ℚ) (x : α) : List α → List α
  | [] => [x]
  | y :: ys => if key y ≤ key x then x :: y :: ys else y :: insertDesc key x ys

/-- A sort that is correct for the JS comparator
`(a, b) => b.matchScore - a.matchScore`: any comparator-consistent sort
yields a list non-increasing in the key, which is all the source relies
on (JS leaves the algorithm, and hence tie order, unspecified). -/
def sortDesc (key : α → ℚ) : List α → List α
  | [] => []
  | x :: xs => insertDesc key x (sortDesc key xs)

/-- A match record emitted by `recommendSwaps` in `src/server.js:110-116`
(`from`/`to` renamed to `fromItem`/`toItem`; `from` is a Lean keyword). -/
structure RecS where
  fromItem : ItemS
  toItem : ItemS
  scoreA : ℚ
  scoreB : ℚ
  matchScore : ℚ
deriving DecidableEq, Repr

/-- Embeds `itemX.category ?? "other"` of `src/server.js:101-102`. -/
def catS (i : ItemS) : String := i.category.getD "other"

/-- Embeds `recommendSwaps` of `src/server.js:86-121`: resolve the requester (empty
list if unknown), pair each own item with each item of every other user,
optionally skip pairs with differing non-empty categories
(`if (catA && catB && catA !== catB) continue`), score both directions,
emit rounded records and sort by descending matchScore. -/
def recommendSwapsS (M : MathPrims) (currentUserId : String) (users : List UserS)
    (items : List ItemS) (userLocations : String → Option Loc) (w : Weights)
    (opts : OptsS) : List RecS :=
  match users.find? (fun u => u.userId == currentUserId) with
  | none => []
  | some userA =>
    let itemsA := items.filter (fun i => i.userId == currentUserId)
    sortDesc RecS.matchScore
      (users.flatMap (fun userB =>
        if userB.userId == currentUserId then []
        else
          let itemsB := items.filter (fun i => i.userId == userB.userId)
          itemsA.flatMap (fun itemA =>
            itemsB.flatMap (fun itemB =>
              if opts.useCategory ∧ catS itemA ≠ "" ∧ catS itemB ≠ "" ∧
                  catS itemA ≠ catS itemB then []
              else
                let scoreA := evaluateDesireS M userA itemB itemA userLocations w opts
                let scoreB := evaluateDesireS M userB itemA itemB userLocations w opts
                [⟨itemA, itemB, round3 scoreA, round3 scoreB,
                  round3 ((scoreA + scoreB) / 2)⟩]))))

/-- A match record emitted by `recommendSwaps` in
`src/unnamed/part_004:206-214`. -/
structure Rec4 where
  fromUser : String
  toUser : String
  fromItem : Item4
  toItem : Item4
  scoreA : ℚ
  scoreB : ℚ
  matchScore : ℚ
deriving DecidableEq, Repr

/-- Embeds `itemX.category ?? inferCategory(...)` of `src/unnamed/part_004:176-177`. -/
def cat4 (i : Item4) : String := i.category.getD (inferCategory4 i.title i.tags)

/-- Embeds `recommendSwaps` of `src/unnamed/part_004:151-220`: email-keyed variant;
returns early when the requester is unknown or owns no items; optional
category filter; in `"tolerance"` price mode pairs whose raw absolute price
delta exceeds the tolerance are skipped before scoring; then both directions
are scored, records emitted rounded, and the list sorted by descending
matchScore. -/
def recommendSwaps4 (M : MathPrims) (currentEmail : String) (users : List User4)
    (items : List Item4) (userLocations : String → Option Loc) (w : Weights)
    (opts : Opts4) : List Rec4 :=
  match users.find? (fun u => u.email == currentEmail) with
  | none => []
  | some userA =>
    let itemsA := items.filter (fun i => i.email == currentEmail)
    if itemsA.isEmpty then []
    else
      sortDesc Rec4.matchScore
        (users.flatMap (fun userB =>
          if userB.email == currentEmail then []
          else
            let itemsB := items.filter (fun i => i.email == userB.email)
            itemsA.flatMap (fun itemA =>
              itemsB.flatMap (fun itemB =>
                if opts.useCategory ∧ cat4 itemA ≠ "" ∧ cat4 itemB ≠ "" ∧
                    cat4 itemA ≠ cat4 itemB then []
                else if opts.priceMode = "tolerance" ∧
                    max 0 opts.priceTol < |itemA.price - itemB.price| then []
                else
                  let scoreA := evaluateDesire4 M userA itemB itemA userLocations w opts
                  let scoreB := evaluateDesire4 M userB itemA itemB userLocations w opts
                  [⟨userA.email, userB.email, itemA, itemB, round3 scoreA,
                    round3 scoreB, round3 ((scoreA + scoreB) / 2)⟩]))))

/-- A match record emitted by `recommendAllMatches` in
`src/recommend.js:75-81`. -/
structure RecR where
  fromItem : ItemR
  toItem : ItemR
  scoreA : ℚ
  scoreB : ℚ
  matchScore : ℚ
deriving DecidableEq, Repr

/-- Embeds `recommendAllMatches` of `src/recommend.js:57-87`: pairs every own item
against every other user's items and sorts by descending matchScore, but
THROWS (`throw new Error("找不到登入使用者")`) when the requester is not in
the user list — modelled as `Except.error`. -/
def recommendAllMatchesE (M : MathPrims) (userId : String) (users : List UserR)
    (items : List ItemR) (userLocations : String → Option Loc)
    (preference : String) : Except String (List RecR) :=
  match users.find? (fun u => u.userId == userId) with
  | none => Except.error "找不到登入使用者"
  | some me =>
    let myItems := items.filter (fun i => i.userId == userId)
    let otherUsers := users.filter (fun u => !(u.userId == userId))
    Except.ok (sortDesc RecR.matchScore
      (myItems.flatMap (fun itemA =>
        otherUsers.flatMap (fun other =>
          (items.filter (fun i => i.userId == other.userId)).map (fun itemB =>
            let scoreA := evaluateDesireRec M me itemB itemA userLocations preference
            let scoreB := evaluateDesireRec M other itemA itemB userLocations preference
            ⟨itemA, itemB, round3 scoreA, round3 scoreB,
              round3 ((scoreA + scoreB) / 2)⟩)))))

/-- Invite status enum (`src/models/Invite.js`:
`enum: ["pending", "accepted", "rejected"]`, default pending). -/
inductive IStatus
  | pending
  | accepted
  | rejected
deriving DecidableEq, Repr

/-- An Invite document (identity fields are the email/userId strings of the
two parties; item ids are strings). -/
structure InviteE where
  fromId : String
  toId : String
  fromItem : String
  toItem : String
  status : IStatus
deriving DecidableEq, Repr

/-- An embedded chat message `{sender, text, createdAt}`; `createdAt` is the
server timestamp (`new Date()`), modelled as a natural number passed in by
the operation. -/
structure MsgE where
  sender : String
  text : String
  createdAt : ℕ
deriving DecidableEq, Repr

/-- A Chat document (`src/models/Chat.js` variants with
`doneConfirmations`/`closed`/`closedAt`): member identities, the item pair
of the originating invite, the message log, the done-confirmation list, the
closed flag and the optional closed timestamp. -/
structure ChatE where
  members : List String
  pairFrom : String
  pairTo : String
  messages : List MsgE
  doneConfirmations : List String
  closed : Bool
  closedAt : Option ℕ
deriving DecidableEq, Repr

/-- The store: the Invite and Chat collections as id-keyed lists (documents
are appended in creation order, ids allocated from counters). -/
structure Sys where
  invites : List (ℕ × InviteE)
  chats : List (ℕ × ChatE)
  nextInvite : ℕ
  nextChat : ℕ
deriving DecidableEq, Repr

/-- The empty store. -/
def initSys : Sys := ⟨[], [], 0, 0⟩

/-- Embeds `Invite.findById`. -/
def findInvite (s : Sys) (id : ℕ) : Option InviteE :=
  (s.invites.find? (fun p => p.1 == id)).map (fun p => p.2)

/-- Embeds `inv.status = st; await inv.save()`: update the status of the invite
with the given id. -/
def setInviteStatus (s : Sys) (id : ℕ) (st : IStatus) : Sys :=
  { s with invites := s.invites.map (fun p =>
      if p.1 == id then (p.1, { p.2 with status := st }) else p) }

/-- Embeds `Chat.findById`. -/
def findChat (s : Sys) (id : ℕ) : Option ChatE :=
  (s.chats.find? (fun p => p.1 == id)).map (fun p => p.2)

/-- Embeds `chat.save()` after mutating the loaded document: rewrite the chat with
the given id through `f` (ids are unique by construction, so `f` acts on
the document the handler loaded). -/
def updateChatBy (s : Sys) (id : ℕ) (f : ChatE → ChatE) : Sys :=
  { s with chats := s.chats.map (fun p =>
      if p.1 == id then (p.1, f p.2) else p) }

/-- The Mongo key query used for chats:
`{ members: { $all: q }, "pair.fromItemId": fi, "pair.toItemId": ti }`
(`$all` requires every listed member to occur, regardless of order). -/
def chatKeyMatch (q : List String) (fi ti : String) (c : ChatE) : Bool :=
  q.all (fun m => c.members.contains m) && c.pairFrom == fi && c.pairTo == ti

/-- Embeds `Chat.findOne` on the member-pair + item-pair key (first document in
collection order, as Mongo without an explicit sort). -/
def findChatByKey (s : Sys) (q : List String) (fi ti : String) : Option (ℕ × ChatE) :=
  s.chats.find? (fun p => chatKeyMatch q fi ti p.2)

/-- Embeds `Chat.create({members, pair, messages: []})`: the new document gets the
schema defaults `doneConfirmations: []`, `closed: false`, no `closedAt`. -/
def createChat (s : Sys) (members : List String) (fi ti : String) : Sys × ℕ :=
  ({ s with
      chats := s.chats ++ [(s.nextChat,
        ⟨members, fi, ti, [], [], false, none⟩)],
      nextChat := s.nextChat + 1 },
    s.nextChat)

/-- Lexicographic comparison of character lists by code point (JS's default
sort comparator works on code units). -/
def charListLt : List Char → List Char → Bool
  | [], [] => false
  | [], _ :: _ => true
  | _ :: _, [] => false
  | c :: cs, d :: ds =>
    if c.toNat < d.toNat then true
    else if d.toNat < c.toNat then false
    else charListLt cs ds

/-- JS string `<` by code units. -/
def strLtJS (a b : String) : Bool := charListLt a.data b.data

/-- Embeds `[a, b].sort()` on the two member identities. -/
def sortPair (a b : String) : List String :=
  if strLtJS b a then [b, a] else [a, b]

/-- Response of `POST /invite`. -/
inductive CreateResp
  | ok (inviteId : ℕ)
deriving DecidableEq, Repr

/-- Embeds `POST /invite` (`src/server.js:196-207`, `src/unnamed/part_004:347-364`):
if a pending invite with the exact same tuple exists, return its id without
creating; otherwise create a new pending invite. -/
def createInvite (s : Sys) (f t fi ti : String) : Sys × CreateResp :=
  match s.invites.find? (fun p =>
      p.2.fromId == f && p.2.toId == t && p.2.fromItem == fi &&
      p.2.toItem == ti && p.2.status == IStatus.pending) with
  | some p => (s, .ok p.1)
  | none =>
    ({ s with
        invites := s.invites ++ [(s.nextInvite, ⟨f, t, fi, ti, IStatus.pending⟩)],
        nextInvite := s.nextInvite + 1 },
      .ok s.nextInvite)

/-- Response of `POST /invites/:id/reject`. -/
inductive RejectResp
  | notFound
  | ok
deriving DecidableEq, Repr

/-- Embeds `POST /invites/:id/reject` (identical in `src/server.js:220-227` and
`src/unnamed/part_004:379-387`): 404 when unresolved; no-op success when not
pending; otherwise transition to rejected. -/
def rejectInvite (s : Sys) (id : ℕ) : Sys × RejectResp :=
  match findInvite s id with
  | none => (s, .notFound)
  | some inv =>
    if inv.status ≠ IStatus.pending then (s, .ok)
    else (setInviteStatus s id IStatus.rejected, .ok)

/-- Response of `POST /invites/:id/accept` (`chatId` is absent both in the
part_004 non-pending branch and when the server.js accepted-branch `findOne`
misses). -/
inductive AcceptResp
  | notFound
  | ok (chatId : Option ℕ)
deriving DecidableEq, Repr

/-- The shared tail of both accept handlers: sort the member pair, then
find-or-create the chat on the member-pair + item-pair key. -/
def acceptFindOrCreate (s : Sys) (inv : InviteE) : Sys × ℕ :=
  let members := sortPair inv.fromId inv.toId
  match findChatByKey s members inv.fromItem inv.toItem with
  | some p => (s, p.1)
  | none => createChat s members inv.fromItem inv.toItem

/-- Embeds `POST /invites/:id/accept` of `src/server.js:230-252`: 404 when
unresolved; when already accepted, look the chat up by
`{members: {$all: [from, to]}, pair}` and return its id (`chat?._id`);
OTHERWISE — including a rejected invite — set the status to accepted and
find-or-create the chat. -/
def acceptInviteS (s : Sys) (id : ℕ) : Sys × AcceptResp :=
  match findInvite s id with
  | none => (s, .notFound)
  | some inv =>
    if inv.status = IStatus.accepted then
      (s, .ok ((findChatByKey s [inv.fromId, inv.toId] inv.fromItem inv.toItem).map
        (fun p => p.1)))
    else
      let s1 := setInviteStatus s id IStatus.accepted
      let sc := acceptFindOrCreate s1 inv
      (sc.1, .ok (some sc.2))

/-- Embeds `POST /invites/:id/accept` of `src/unnamed/part_004:390-413`: 404 when
unresolved; ANY non-pending invite is answered `{ok: true}` with no chat id
and no mutation; a pending invite is accepted and its chat
found-or-created. -/
def acceptInvite4 (s : Sys) (id : ℕ) : Sys × AcceptResp :=
  match findInvite s id with
  | none => (s, .notFound)
  | some inv =>
    if inv.status ≠ IStatus.pending then (s, .ok none)
    else
      let s1 := setInviteStatus s id IStatus.accepted
      let sc := acceptFindOrCreate s1 inv
      (sc.1, .ok (some sc.2))

/-- Response of `POST /chats/:chatId/messages`. -/
inductive MsgResp
  | notFound
  | forbidden
  | ok
deriving DecidableEq, Repr

/-- Embeds `POST /chats/:chatId/messages` of `src/server.js:285-296` (same as
`src/unnamed/part_004:453-466`): 404 when unresolved, 403 when the chat is
closed, otherwise push `{sender, text, createdAt: new Date()}`. -/
def postMessageS (s : Sys) (cid : ℕ) (sender text : String) (now : ℕ) :
    Sys × MsgResp :=
  match findChat s cid with
  | none => (s, .notFound)
  | some c =>
    if c.closed then (s, .forbidden)
    else
      (updateChatBy s cid (fun ch =>
        { ch with messages := ch.messages ++ [⟨sender, text, now⟩] }), .ok)

/-- Embeds `POST /chats/:chatId/messages` of `src/unnamed/part_005:220-228`: the
historic variant WITHOUT the closed check — it appends to any resolved
chat. -/
def postMessage5 (s : Sys) (cid : ℕ) (sender text : String) (now : ℕ) :
    Sys × MsgResp :=
  match findChat s cid with
  | none => (s, .notFound)
  | some _ =>
    (updateChatBy s cid (fun ch =>
      { ch with messages := ch.messages ++ [⟨sender, text, now⟩] }), .ok)

/-- Response of `POST /chats/:chatId/done`. -/
inductive DoneResp
  | notFound
  | forbidden
  | ok (closed : Bool) (doneConfirmations : List String)
deriving DecidableEq, Repr

/-- The chat mutation of `src/server.js:306-314` /
`src/unnamed/part_004:478-488`: push the caller onto `doneConfirmations` if
absent; then, whenever every member has confirmed, set `closed = true` AND
stamp `closedAt = new Date()` (the stamp is executed on every such call,
not only on the open→closed transition). -/
def applyDone (c : ChatE) (caller : String) (now : ℕ) : ChatE :=
  let done := if c.doneConfirmations.contains caller then c.doneConfirmations
    else c.doneConfirmations ++ [caller]
  let both := c.members.all (fun m => done.contains m)
  { c with
      doneConfirmations := done,
      closed := if both then true else c.closed,
      closedAt := if both then some now else c.closedAt }

/-- Embeds `POST /chats/:chatId/done` (identical logic in `src/server.js:298-318`
and `src/unnamed/part_004:469-496`): 404 when unresolved, 403 when the
caller is not a member (no mutation), else apply `applyDone` and save. -/
def confirmDone (s : Sys) (cid : ℕ) (caller : String) (now : ℕ) :
    Sys × DoneResp :=
  match findChat s cid with
  | none => (s, .notFound)
  | some c =>
    if c.members.contains caller then
      let c1 := applyDone c caller now
      (updateChatBy s cid (fun ch => applyDone ch caller now),
        .ok c1.closed c1.doneConfirmations)
    else (s, .forbidden)

/-- One externally triggered operation against the store; one constructor
per mutating handler variant (timestamps for message/done calls are inputs,
standing for `new Date()`). -/
inductive Op
  | createInv (f t fi ti : String)
  | rejectInv (id : ℕ)
  | acceptS (id : ℕ)
  | accept4 (id : ℕ)
  | postMsgS (cid : ℕ) (sender text : String) (now : ℕ)
  | postMsg5 (cid : ℕ) (sender text : String) (now : ℕ)
  | done (cid : ℕ) (caller : String) (now : ℕ)
deriving DecidableEq, Repr

/-- Apply one operation (the state component of the handler's result). -/
def applyOp (s : Sys) : Op → Sys
  | .createInv f t fi ti => (createInvite s f t fi ti).1
  | .rejectInv id => (rejectInvite s id).1
  | .acceptS id => (acceptInviteS s id).1
  | .accept4 id => (acceptInvite4 s id).1
  | .postMsgS cid sender text now => (postMessageS s cid sender text now).1
  | .postMsg5 cid sender text now => (postMessage5 s cid sender text now).1
  | .done cid caller now => (confirmDone s cid caller now).1

/-- Run a call sequence left to right. -/
def runOps (s : Sys) : List Op → Sys
  | [] => s
  | op :: rest => runOps (applyOp s op) rest

/-- Concrete items for evaluating the tolerance-mode enumerator: prices 10
and 20, price delta 10, within tolerance 100. -/
def itemA8 : Item4 := ⟨"a", "ta", [], 50, 10, some "other"⟩

/-- See `itemA8`. -/
def itemB8 : Item4 := ⟨"b", "tb", [], 80, 20, some "other"⟩

/-- The single record `recommendSwaps4` emits for `itemA8`/`itemB8` under
all-zero weights (every score is 0). -/
def rec8 : Rec4 := ⟨"a", "b", itemA8, itemB8, 0, 0, 0⟩

/-- The closed-flag invariant of a single chat: `closed` is true exactly when
every member occurs in `doneConfirmations`; chats always have members. -/
def chatInv (c : ChatE) : Prop :=
  (c.closed = true ↔ ∀ m ∈ c.members, m ∈ c.doneConfirmations) ∧ c.members ≠ []

/-- The store invariant: every chat satisfies `chatInv`. -/
def sysInv (s : Sys) : Prop := ∀ p ∈ s.chats, chatInv p.2

/-- The all-zero stand-in for the `Math` primitives, used by concrete
evaluations whose value does not depend on them (for instance when the
distance weight is zero or the distance branch is not taken). -/
def M0 : MathPrims := ⟨fun _ => 0, fun _ => 0, fun _ => 0, fun _ => 0, fun _ _ => 0, 0⟩

/-- Concrete call sequence: create an invite, accept it, both members
confirm done. -/
def opsC1 : List Op :=
  [Op.createInv "a" "b" "i1" "i2", Op.accept4 0, Op.done 0 "a" 5, Op.done 0 "b" 6]

/-- The chat produced by `opsC1`. -/
def chatC1 : ChatE := ⟨["a", "b"], "i1", "i2", [], ["a", "b"], true, some 6⟩

/-- A store holding one open two-member chat. -/
def sysOpen : Sys := ⟨[], [(0, ⟨["a", "b"], "i1", "i2", [], [], false, none⟩)], 0, 1⟩

/-- A store holding one closed chat (both members confirmed, closed at 5). -/
def sysClosed : Sys :=
  ⟨[], [(0, ⟨["a", "b"], "i1", "i2", [], ["a", "b"], true, some 5⟩)], 0, 1⟩

/-- A store holding one rejected invite. -/
def sysRejected : Sys := ⟨[(0, ⟨"a", "b", "i1", "i2", IStatus.rejected⟩)], [], 1, 0⟩

/-- A store holding one accepted invite (and no chats). -/
def sysAccepted : Sys := ⟨[(0, ⟨"a", "b", "i1", "i2", IStatus.accepted⟩)], [], 1, 0⟩

/-- A store holding one pending invite. -/
def sysPending : Sys := ⟨[(0, ⟨"a", "b", "i1", "i2", IStatus.pending⟩)], [], 1, 0⟩

theorem mem_insertDesc {key : α → ℚ} {x a : α} {l : List α} :
    a ∈ insertDesc key x l ↔ a = x ∨ a ∈ l := by
  induction l with
  | nil => simp [insertDesc]
  | cons y ys ih =>
    by_cases h : key y ≤ key x
    · simp [insertDesc, h]
    · simp only [insertDesc, if_neg h, List.mem_cons, ih]
      tauto

theorem mem_sortDesc {key : α → ℚ} {a : α} {l : List α} :
    a ∈ sortDesc key l ↔ a ∈ l := by
  induction l with
  | nil => simp [sortDesc]
  | cons y ys ih => simp [sortDesc, mem_insertDesc, ih]

theorem pairwise_insertDesc {key : α → ℚ} (x : α) {l : List α}
    (h : List.Pairwise (fun a b => key b ≤ key a) l) :
    List.Pairwise (fun a b => key b ≤ key a) (insertDesc key x l) := by
  induction l with
  | nil => simp [insertDesc]
  | cons y ys ih =>
    rcases List.pairwise_cons.mp h with ⟨hy, hys⟩
    by_cases hle : key y ≤ key x
    · simp only [insertDesc, if_pos hle]
      refine List.pairwise_cons.mpr ⟨?_, h⟩
      intro z hz
      rcases List.mem_cons.mp hz with rfl | hz'
      · exact hle
      · exact le_trans (hy z hz') hle
    · simp only [insertDesc, if_neg hle]
      refine List.pairwise_cons.mpr ⟨?_, ih hys⟩
      intro z hz
      rcases mem_insertDesc.mp hz with rfl | hz'
      · exact le_of_lt (lt_of_not_le hle)
      · exact hy z hz'

theorem pairwise_sortDesc (key : α → ℚ) (l : List α) :
    List.Pairwise (fun a b => key b ≤ key a) (sortDesc key l) := by
  induction l with
  | nil => simp [sortDesc]
  | cons y ys ih => exact pairwise_insertDesc y ih

theorem find?_fst_map {β : Type _} (l : List (ℕ × β)) (cid : ℕ) (f : β → β) :
    (l.map (fun p => if p.1 == cid then (p.1, f p.2) else p)).find?
        (fun p => p.1 == cid)
      = (l.find? (fun p => p.1 == cid)).map (fun p => (p.1, f p.2)) := by
  induction l with
  | nil => rfl
  | cons a l ih =>
    by_cases h : a.1 = cid
    · simp [List.find?_cons, h]
    · have hb : (a.1 == cid) = false := beq_eq_false_iff_ne.mpr h
      simp only [List.map_cons, List.find?_cons, hb, if_neg, cond_false, ih]
      simp [hb]

theorem findChat_updateChatBy (s : Sys) (cid : ℕ) (f : ChatE → ChatE) :
    findChat (updateChatBy s cid f) cid = (findChat s cid).map f := by
  unfold findChat updateChatBy
  dsimp only
  rw [find?_fst_map s.chats cid f]
  cases s.chats.find? (fun p => p.1 == cid) <;> rfl

theorem findInvite_setInviteStatus (s : Sys) (id : ℕ) (st : IStatus) :
    findInvite (setInviteStatus s id st) id
      = (findInvite s id).map (fun inv => { inv with status := st }) := by
  unfold findInvite setInviteStatus
  dsimp only
  rw [find?_fst_map s.invites id (fun inv => { inv with status := st })]
  cases s.invites.find? (fun p => p.1 == id) <;> rfl

theorem sysInv_of_chats_eq {s s' : Sys} (h : s'.chats = s.chats)
    (hs : sysInv s) : sysInv s' := by
  intro p hp
  exact hs p (h ▸ hp)

theorem chats_createInvite (s : Sys) (f t fi ti : String) :
    ((createInvite s f t fi ti).1).chats = s.chats := by
  unfold createInvite
  cases s.invites.find? (fun p =>
      p.2.fromId == f && p.2.toId == t && p.2.fromItem == fi &&
      p.2.toItem == ti && p.2.status == IStatus.pending) <;> rfl

theorem chats_setInviteStatus (s : Sys) (id : ℕ) (st : IStatus) :
    (setInviteStatus s id st).chats = s.chats := rfl

theorem invites_updateChatBy (s : Sys) (cid : ℕ) (f : ChatE → ChatE) :
    (updateChatBy s cid f).invites = s.invites := rfl

theorem invites_acceptFindOrCreate (s : Sys) (inv : InviteE) :
    ((acceptFindOrCreate s inv).1).invites = s.invites := by
  simp only [acceptFindOrCreate]
  split
  · rfl
  · rfl

theorem sortPair_ne_nil (a b : String) : sortPair a b ≠ [] := by
  unfold sortPair
  split <;> simp

theorem mem_sortPair_left (a b : String) : a ∈ sortPair a b := by
  unfold sortPair
  split <;> simp

theorem mem_sortPair_right (a b : String) : b ∈ sortPair a b := by
  unfold sortPair
  split <;> simp

theorem chatInv_new (members : List String) (fi ti : String)
    (h : members ≠ []) :
    chatInv ⟨members, fi, ti, [], [], false, none⟩ := by
  constructor
  · simp only [iff_iff_implies_and_implies]
    constructor
    · intro hfalse
      cases hfalse
    · intro hall
      rcases List.exists_mem_of_ne_nil members h with ⟨m, hm⟩
      exact absurd (hall m hm) (List.not_mem_nil m)
  · exact h

theorem applyDone_chatInv {c : ChatE} (h : chatInv c) (caller : String)
    (now : ℕ) : chatInv (applyDone c caller now) := by
  rcases h with ⟨hiff, hne⟩
  have hsub : ∀ m, m ∈ c.doneConfirmations →
      m ∈ (if c.doneConfirmations.contains caller then c.doneConfirmations
        else c.doneConfirmations ++ [caller]) := by
    intro m hm
    split
    · exact hm
    · exact List.mem_append_left _ hm
  unfold chatInv applyDone
  dsimp only
  refine ⟨?_, hne⟩
  set D := if c.doneConfirmations.contains caller then c.doneConfirmations
    else c.doneConfirmations ++ [caller] with hD
  by_cases hboth : (c.members.all fun m => D.contains m) = true
  · rw [if_pos hboth]
    have hall : ∀ m ∈ c.members, m ∈ D := fun m hm =>
      List.elem_iff.mp (List.all_eq_true.mp hboth m hm)
    exact iff_of_true rfl hall
  · rw [if_neg hboth]
    have hnall : ¬ ∀ m ∈ c.members, m ∈ D := fun hall =>
      hboth (List.all_eq_true.mpr (fun m hm => List.elem_iff.mpr (hall m hm)))
    constructor
    · intro hcl
      exact absurd (fun m hm => hsub m (hiff.mp hcl m hm)) hnall
    · intro hall
      exact absurd hall hnall

theorem chatInv_messages {c : ChatE} (h : chatInv c) (ms : List MsgE) :
    chatInv { c with messages := ms } := h

theorem sysInv_updateChatBy {s : Sys} (hs : sysInv s) (cid : ℕ)
    {f : ChatE → ChatE} (hf : ∀ c, chatInv c → chatInv (f c)) :
    sysInv (updateChatBy s cid f) := by
  intro p hp
  unfold updateChatBy at hp
  dsimp only at hp
  rcases List.mem_map.mp hp with ⟨q, hq, hqe⟩
  by_cases h : q.1 == cid
  · rw [if_pos h] at hqe
    subst hqe
    exact hf q.2 (hs q hq)
  · rw [if_neg h] at hqe
    subst hqe
    exact hs q hq

theorem sysInv_acceptFindOrCreate {s : Sys} (hs : sysInv s) (inv : InviteE) :
    sysInv ((acceptFindOrCreate s inv).1) := by
  simp only [acceptFindOrCreate]
  split
  · exact hs
  · simp only [createChat]
    intro q hq
    dsimp only at hq
    rcases List.mem_append.mp hq with hold | hnew
    · exact hs q hold
    · rcases List.mem_singleton.mp hnew with rfl
      exact chatInv_new _ _ _ (sortPair_ne_nil inv.fromId inv.toId)

theorem sysInv_applyOp {s : Sys} (hs : sysInv s) (op : Op) :
    sysInv (applyOp s op) := by
  cases op with
  | createInv f t fi ti =>
    exact sysInv_of_chats_eq (chats_createInvite s f t fi ti) hs
  | rejectInv id =>
    show sysInv (rejectInvite s id).1
    unfold rejectInvite
    split
    · exact hs
    · split
      · exact hs
      · exact sysInv_of_chats_eq rfl hs
  | acceptS id =>
    show sysInv (acceptInviteS s id).1
    unfold acceptInviteS
    split
    · exact hs
    · split
      · exact hs
      · dsimp only
        exact sysInv_acceptFindOrCreate
          (@sysInv_of_chats_eq s (setInviteStatus s id IStatus.accepted) rfl hs) _
  | accept4 id =>
    show sysInv (acceptInvite4 s id).1
    unfold acceptInvite4
    split
    · exact hs
    · split
      · exact hs
      · dsimp only
        exact sysInv_acceptFindOrCreate
          (@sysInv_of_chats_eq s (setInviteStatus s id IStatus.accepted) rfl hs) _
  | postMsgS cid sender text now =>
    show sysInv (postMessageS s cid sender text now).1
    unfold postMessageS
    split
    · exact hs
    · split
      · exact hs
      · exact sysInv_updateChatBy hs cid (fun c h => chatInv_messages h _)
  | postMsg5 cid sender text now =>
    show sysInv (postMessage5 s cid sender text now).1
    unfold postMessage5
    split
    · exact hs
    · exact sysInv_updateChatBy hs cid (fun c h => chatInv_messages h _)
  | done cid caller now =>
    show sysInv (confirmDone s cid caller now).1
    unfold confirmDone
    split
    · exact hs
    · split
      · exact sysInv_updateChatBy hs cid (fun c h => applyDone_chatInv h caller now)
      · exact hs

theorem sysInv_runOps {s : Sys} (hs : sysInv s) (ops : List Op) :
    sysInv (runOps s ops) := by
  induction ops generalizing s with
  | nil => exact hs
  | cons op rest ih => exact ih (sysInv_applyOp hs op)

theorem sysInv_init : sysInv initSys := by
  intro p hp
  cases hp

theorem confirmDone_not_member {s : Sys} {cid : ℕ} {c : ChatE}
    {caller : String} (now : ℕ) (hfind : findChat s cid = some c)
    (hmem : caller ∉ c.members) :
    confirmDone s cid caller now = (s, DoneResp.forbidden) := by
  have hc : c.members.contains caller = false := by
    cases h : c.members.contains caller
    · rfl
    · exact absurd (List.elem_iff.mp h) hmem
  unfold confirmDone
  rw [hfind]
  dsimp only
  rw [hc]
  simp

theorem applyDone_mem (c : ChatE) (caller : String) (now : ℕ) :
    caller ∈ (applyDone c caller now).doneConfirmations := by
  unfold applyDone
  dsimp only
  split
  · next h => exact List.elem_iff.mp h
  · exact List.mem_append_right _ (List.mem_singleton.mpr rfl)

theorem applyDone_idem (c : ChatE) (caller : String) (now : ℕ)
    (h : caller ∈ c.doneConfirmations) :
    (applyDone c caller now).doneConfirmations = c.doneConfirmations := by
  unfold applyDone
  dsimp only
  rw [if_pos (List.elem_iff.mpr h)]

/-- C1: after any sequence of create/accept/post-message/confirm-done calls
starting from the empty store, every chat's `closed` flag is true exactly
when its confirmation set contains all its members; `confirm-done` adds the
caller only if absent (so it is idempotent on the confirmation set) and
answers Forbidden without any mutation when the caller is not a member. -/
theorem claimC1_confirmDone_invariant :
    (∀ ops : List Op, ∀ p ∈ (runOps initSys ops).chats,
        p.2.closed = true ↔ ∀ m ∈ p.2.members, m ∈ p.2.doneConfirmations) ∧
    (∀ (s : Sys) (cid : ℕ) (c : ChatE) (caller : String) (now : ℕ),
        findChat s cid = some c → caller ∉ c.members →
        confirmDone s cid caller now = (s, DoneResp.forbidden)) ∧
    (∀ (c : ChatE) (caller : String) (now : ℕ),
        caller ∈ (applyDone c caller now).doneConfirmations ∧
        (caller ∈ c.doneConfirmations →
          (applyDone c caller now).doneConfirmations = c.doneConfirmations)) := by
  refine ⟨?_, ?_, ?_⟩
  · intro ops p hp
    exact ((sysInv_runOps sysInv_init ops) p hp).1
  · intro s cid c caller now hfind hmem
    exact confirmDone_not_member now hfind hmem
  · intro c caller now
    exact ⟨applyDone_mem c caller now, applyDone_idem c caller now⟩

/-- Witness for C1 at concrete inputs: the chat reached by `opsC1` is closed
and its confirmation set covers both members; confirming as the non-member
`"z"` on `sysOpen` is Forbidden without mutation; re-confirming as `"a"` on
the already-confirmed `chatC1` leaves the confirmation set unchanged. -/
theorem claimC1_confirmDone_invariant_witness :
    ((0, chatC1) ∈ (runOps initSys opsC1).chats →
      (chatC1.closed = true ↔ ∀ m ∈ chatC1.members, m ∈ chatC1.doneConfirmations)) ∧
    ((0, chatC1) ∈ (runOps initSys opsC1).chats) ∧
    (findChat sysOpen 0 = some ⟨["a", "b"], "i1", "i2", [], [], false, none⟩) ∧
    ("z" ∉ (⟨["a", "b"], "i1", "i2", [], [], false, none⟩ : ChatE).members) ∧
    confirmDone sysOpen 0 "z" 9 = (sysOpen, DoneResp.forbidden) ∧
    ("a" ∈ chatC1.doneConfirmations ∧
      (applyDone chatC1 "a" 9).doneConfirmations = chatC1.doneConfirmations) := by
  refine ⟨fun hp => claimC1_confirmDone_invariant.1 opsC1 (0, chatC1) hp,
    by decide, by decide, by decide,
    claimC1_confirmDone_invariant.2.1 sysOpen 0
      ⟨["a", "b"], "i1", "i2", [], [], false, none⟩ "z" 9 (by decide) (by decide),
    by decide,
    (claimC1_confirmDone_invariant.2.2 chatC1 "a" 9).2 (by decide)⟩

theorem findInvite_eq_of_invites_eq {s s' : Sys} (h : s'.invites = s.invites)
    (id : ℕ) : findInvite s' id = findInvite s id := by
  unfold findInvite
  rw [h]

theorem accept4_non_pending {s : Sys} {id : ℕ} {inv : InviteE}
    (hfind : findInvite s id = some inv) (hst : inv.status ≠ IStatus.pending) :
    acceptInvite4 s id = (s, AcceptResp.ok none) := by
  unfold acceptInvite4
  rw [hfind]
  dsimp only
  rw [if_pos hst]

theorem reject_non_pending {s : Sys} {id : ℕ} {inv : InviteE}
    (hfind : findInvite s id = some inv) (hst : inv.status ≠ IStatus.pending) :
    rejectInvite s id = (s, RejectResp.ok) := by
  unfold rejectInvite
  rw [hfind]
  dsimp only
  rw [if_pos hst]

theorem acceptS_rejected {s : Sys} {id : ℕ} {inv : InviteE}
    (hfind : findInvite s id = some inv) (hst : inv.status = IStatus.rejected) :
    findInvite (acceptInviteS s id).1 id
      = some { inv with status := IStatus.accepted } := by
  unfold acceptInviteS
  rw [hfind]
  dsimp only
  rw [if_neg (by rw [hst]; exact fun h => IStatus.noConfusion h)]
  dsimp only
  rw [findInvite_eq_of_invites_eq
    (invites_acceptFindOrCreate (setInviteStatus s id IStatus.accepted) inv) id]
  rw [findInvite_setInviteStatus, hfind]
  rfl

/-- C2 counterexample: in the `src/server.js` accept handler, accepting the
rejected invite of `sysRejected` CHANGES its status to accepted — the claim
"calling accept-invite on a rejected invite never changes its status" is
false on this code. -/
theorem claimC2_counterexample :
    findInvite sysRejected 0 = some ⟨"a", "b", "i1", "i2", IStatus.rejected⟩ ∧
    findInvite (acceptInviteS sysRejected 0).1 0
      = some ⟨"a", "b", "i1", "i2", IStatus.accepted⟩ ∧
    IStatus.accepted ≠ IStatus.rejected := by
  refine ⟨by decide, by decide, by decide⟩

/-- C2 amended: in the `part_004` variant, accept-invite on any non-pending
invite performs no mutation, and in both variants reject-invite on a
non-pending invite performs no mutation (so pending → accepted and
pending → rejected are terminal there); in the `src/server.js` variant,
however, accept-invite transitions a REJECTED invite to accepted. -/
theorem claimC2_invite_transitions :
    (∀ (s : Sys) (id : ℕ) (inv : InviteE), findInvite s id = some inv →
        inv.status ≠ IStatus.pending →
        acceptInvite4 s id = (s, AcceptResp.ok none)) ∧
    (∀ (s : Sys) (id : ℕ) (inv : InviteE), findInvite s id = some inv →
        inv.status ≠ IStatus.pending →
        rejectInvite s id = (s, RejectResp.ok)) ∧
    (∀ (s : Sys) (id : ℕ) (inv : InviteE), findInvite s id = some inv →
        inv.status = IStatus.rejected →
        findInvite (acceptInviteS s id).1 id
          = some { inv with status := IStatus.accepted }) := by
  refine ⟨?_, ?_, ?_⟩
  · intro s id inv hfind hst
    exact accept4_non_pending hfind hst
  · intro s id inv hfind hst
    exact reject_non_pending hfind hst
  · intro s id inv hfind hst
    exact acceptS_rejected hfind hst

/-- Witness for C2 at concrete inputs: the part_004 accept and the reject
handler leave the accepted invite of `sysAccepted` untouched, and the
server.js accept flips the rejected invite of `sysRejected` to accepted. -/
theorem claimC2_invite_transitions_witness :
    (findInvite sysAccepted 0 = some ⟨"a", "b", "i1", "i2", IStatus.accepted⟩ ∧
      IStatus.accepted ≠ IStatus.pending ∧
      acceptInvite4 sysAccepted 0 = (sysAccepted, AcceptResp.ok none) ∧
      rejectInvite sysAccepted 0 = (sysAccepted, RejectResp.ok)) ∧
    (findInvite sysRejected 0 = some ⟨"a", "b", "i1", "i2", IStatus.rejected⟩ ∧
      findInvite (acceptInviteS sysRejected 0).1 0
        = some ⟨"a", "b", "i1", "i2", IStatus.accepted⟩) := by
  refine ⟨⟨by decide, by decide,
    claimC2_invite_transitions.1 sysAccepted 0
      ⟨"a", "b", "i1", "i2", IStatus.accepted⟩ (by decide) (by decide),
    claimC2_invite_transitions.2.1 sysAccepted 0
      ⟨"a", "b", "i1", "i2", IStatus.accepted⟩ (by decide) (by decide)⟩,
    ⟨by decide,
    claimC2_invite_transitions.2.2 sysRejected 0
      ⟨"a", "b", "i1", "i2", IStatus.rejected⟩ (by decide) (by decide)⟩⟩

theorem chatKeyMatch_pair_comm (f t fi ti : String) (c : ChatE) :
    chatKeyMatch [f, t] fi ti c = chatKeyMatch (sortPair f t) fi ti c := by
  unfold chatKeyMatch sortPair
  split
  · simp only [List.all_cons, List.all_nil, Bool.and_true]
    rw [Bool.and_comm (c.members.contains f) (c.members.contains t)]
  · rfl

theorem findChatByKey_pair (s : Sys) (f t fi ti : String) :
    findChatByKey s [f, t] fi ti = findChatByKey s (sortPair f t) fi ti := by
  unfold findChatByKey
  have h : (fun p : ℕ × ChatE => chatKeyMatch [f, t] fi ti p.2)
      = fun p => chatKeyMatch (sortPair f t) fi ti p.2 :=
    funext fun p => chatKeyMatch_pair_comm f t fi ti p.2
  rw [h]

theorem acceptFindOrCreate_found (s : Sys) (inv : InviteE) :
    ∃ c, findChatByKey ((acceptFindOrCreate s inv).1)
        (sortPair inv.fromId inv.toId) inv.fromItem inv.toItem
      = some ((acceptFindOrCreate s inv).2, c) := by
  simp only [acceptFindOrCreate]
  cases hk : findChatByKey s (sortPair inv.fromId inv.toId) inv.fromItem inv.toItem with
  | some p =>
    dsimp only
    exact ⟨p.2, hk⟩
  | none =>
    dsimp only
    refine ⟨⟨sortPair inv.fromId inv.toId, inv.fromItem, inv.toItem,
      [], [], false, none⟩, ?_⟩
    unfold findChatByKey createChat
    dsimp only
    rw [List.find?_append]
    have hk' : s.chats.find? (fun p => chatKeyMatch (sortPair inv.fromId inv.toId)
        inv.fromItem inv.toItem p.2) = none := hk
    rw [hk']
    have hall : (sortPair inv.fromId inv.toId).all
        (fun m => (sortPair inv.fromId inv.toId).contains m) = true :=
      List.all_eq_true.mpr (fun m hm => List.elem_iff.mpr hm)
    have hmatch : chatKeyMatch (sortPair inv.fromId inv.toId) inv.fromItem inv.toItem
        ⟨sortPair inv.fromId inv.toId, inv.fromItem, inv.toItem,
          [], [], false, none⟩ = true := by
      unfold chatKeyMatch
      simp [hall]
    simp [List.find?_cons, hmatch]

theorem acceptS_twice {s : Sys} {id : ℕ} {inv : InviteE}
    (hfind : findInvite s id = some inv) (hst : inv.status = IStatus.pending) :
    (acceptInviteS (acceptInviteS s id).1 id).1 = (acceptInviteS s id).1 ∧
    (acceptInviteS (acceptInviteS s id).1 id).2 = (acceptInviteS s id).2 ∧
    ∃ cid, (acceptInviteS s id).2 = AcceptResp.ok (some cid) := by
  have h1 : acceptInviteS s id =
      ((acceptFindOrCreate (setInviteStatus s id IStatus.accepted) inv).1,
        AcceptResp.ok (some (acceptFindOrCreate
          (setInviteStatus s id IStatus.accepted) inv).2)) := by
    unfold acceptInviteS
    rw [hfind]
    dsimp only
    rw [if_neg (by rw [hst]; exact fun h => IStatus.noConfusion h)]
  have h2 : findInvite (acceptFindOrCreate
      (setInviteStatus s id IStatus.accepted) inv).1 id
      = some { inv with status := IStatus.accepted } := by
    rw [findInvite_eq_of_invites_eq
      (invites_acceptFindOrCreate (setInviteStatus s id IStatus.accepted) inv) id]
    rw [findInvite_setInviteStatus, hfind]
    rfl
  obtain ⟨c, hc⟩ :=
    acceptFindOrCreate_found (setInviteStatus s id IStatus.accepted) inv
  have h4 : acceptInviteS (acceptFindOrCreate
      (setInviteStatus s id IStatus.accepted) inv).1 id
      = ((acceptFindOrCreate (setInviteStatus s id IStatus.accepted) inv).1,
        AcceptResp.ok (some (acceptFindOrCreate
          (setInviteStatus s id IStatus.accepted) inv).2)) := by
    unfold acceptInviteS
    rw [h2]
    dsimp only
    rw [if_pos rfl]
    rw [findChatByKey_pair]
    rw [hc]
    rfl
  rw [h1]
  dsimp only
  rw [h4]
  exact ⟨rfl, rfl, _, rfl⟩

/-- C6 counterexample: in the `part_004` accept handler, the first accept of
the pending invite of `sysPending` returns chat id 0, but the second accept
(the invite now being accepted) returns success WITHOUT a chat id — the two
calls do not return the same chat id. -/
theorem claimC6_counterexample :
    (acceptInvite4 sysPending 0).2 = AcceptResp.ok (some 0) ∧
    (acceptInvite4 (acceptInvite4 sysPending 0).1 0).2 = AcceptResp.ok none ∧
    AcceptResp.ok none ≠ AcceptResp.ok (some 0) := by
  refine ⟨by decide, by decide, by decide⟩

/-- C6 amended: in the `src/server.js` variant, accepting a pending invite
twice returns the same chat id both times and the second call leaves the
store (hence the chat collection) unchanged; in the `part_004` variant the
second call performs no mutation either, but answers success with NO chat
id.  In neither variant is a second Chat created for the key. -/
theorem claimC6_accept_idempotent :
    (∀ (s : Sys) (id : ℕ) (inv : InviteE), findInvite s id = some inv →
        inv.status = IStatus.pending →
        (acceptInviteS (acceptInviteS s id).1 id).1 = (acceptInviteS s id).1 ∧
        (acceptInviteS (acceptInviteS s id).1 id).2 = (acceptInviteS s id).2 ∧
        ∃ cid, (acceptInviteS s id).2 = AcceptResp.ok (some cid)) ∧
    (∀ (s : Sys) (id : ℕ) (inv : InviteE), findInvite s id = some inv →
        inv.status = IStatus.accepted →
        (acceptInvite4 s id).1 = s ∧ (acceptInvite4 s id).2 = AcceptResp.ok none) := by
  constructor
  · intro s id inv hfind hst
    exact acceptS_twice hfind hst
  · intro s id inv hfind hst
    have h := accept4_non_pending hfind (by rw [hst]; exact fun h => IStatus.noConfusion h)
    rw [h]
    exact ⟨rfl, rfl⟩

/-- Witness for C6 at concrete inputs: double-accept of the pending invite
of `sysPending` through the server.js handler, and the no-mutation second
accept of `sysAccepted` through the part_004 handler. -/
theorem claimC6_accept_idempotent_witness :
    (findInvite sysPending 0 = some ⟨"a", "b", "i1", "i2", IStatus.pending⟩ ∧
      (acceptInviteS (acceptInviteS sysPending 0).1 0).1 = (acceptInviteS sysPending 0).1 ∧
      (acceptInviteS (acceptInviteS sysPending 0).1 0).2 = (acceptInviteS sysPending 0).2 ∧
      ∃ cid, (acceptInviteS sysPending 0).2 = AcceptResp.ok (some cid)) ∧
    (findInvite sysAccepted 0 = some ⟨"a", "b", "i1", "i2", IStatus.accepted⟩ ∧
      (acceptInvite4 sysAccepted 0).1 = sysAccepted) := by
  refine ⟨⟨by decide, ?_⟩, by decide, ?_⟩
  · exact claimC6_accept_idempotent.1 sysPending 0
      ⟨"a", "b", "i1", "i2", IStatus.pending⟩ (by decide) (by decide)
  · exact (claimC6_accept_idempotent.2 sysAccepted 0
      ⟨"a", "b", "i1", "i2", IStatus.accepted⟩ (by decide) (by decide)).1

/-- C7 counterexample: the `part_005` post-message handler has no closed
check — posting to the closed chat of `sysClosed` succeeds and appends the
message instead of returning Forbidden with the log unchanged. -/
theorem claimC7_counterexample :
    (postMessage5 sysClosed 0 "a" "hi" 7).2 = MsgResp.ok ∧
    findChat (postMessage5 sysClosed 0 "a" "hi" 7).1 0
      = some ⟨["a", "b"], "i1", "i2", [⟨"a", "hi", 7⟩], ["a", "b"], true, some 5⟩ ∧
    MsgResp.ok ≠ MsgResp.forbidden ∧
    ([⟨"a", "hi", 7⟩] : List MsgE).length ≠ ([] : List MsgE).length := by
  refine ⟨by decide, by decide, by decide, by decide⟩

/-- C7 amended: the claim holds as stated for the current handler
(`src/server.js:285-296` / `part_004`): a closed chat answers Forbidden with
the whole store unchanged, and an open chat gets exactly one message
`{sender, text, server timestamp}` appended to the end of its log; the
historic `part_005` handler, however, performs no closed check and appends
even to a closed chat. -/
theorem claimC7_postMessage :
    (∀ (s : Sys) (cid : ℕ) (c : ChatE) (sender text : String) (now : ℕ),
        findChat s cid = some c → c.closed = true →
        postMessageS s cid sender text now = (s, MsgResp.forbidden)) ∧
    (∀ (s : Sys) (cid : ℕ) (c : ChatE) (sender text : String) (now : ℕ),
        findChat s cid = some c → c.closed = false →
        (postMessageS s cid sender text now).2 = MsgResp.ok ∧
        findChat (postMessageS s cid sender text now).1 cid
          = some { c with messages := c.messages ++ [⟨sender, text, now⟩] }) := by
  constructor
  · intro s cid c sender text now hfind hcl
    unfold postMessageS
    rw [hfind]
    dsimp only
    rw [if_pos hcl]
  · intro s cid c sender text now hfind hcl
    unfold postMessageS
    rw [hfind]
    dsimp only
    rw [if_neg (by rw [hcl]; exact Bool.false_ne_true)]
    refine ⟨rfl, ?_⟩
    rw [findChat_updateChatBy, hfind]
    rfl

/-- Witness for C7 at concrete inputs: Forbidden without mutation on the
closed chat of `sysClosed`, and a one-message append on the open chat of
`sysOpen`. -/
theorem claimC7_postMessage_witness :
    (findChat sysClosed 0
        = some ⟨["a", "b"], "i1", "i2", [], ["a", "b"], true, some 5⟩ ∧
      postMessageS sysClosed 0 "a" "hi" 7 = (sysClosed, MsgResp.forbidden)) ∧
    (findChat sysOpen 0 = some ⟨["a", "b"], "i1", "i2", [], [], false, none⟩ ∧
      (postMessageS sysOpen 0 "a" "hi" 7).2 = MsgResp.ok ∧
      findChat (postMessageS sysOpen 0 "a" "hi" 7).1 0
        = some ⟨["a", "b"], "i1", "i2", [⟨"a", "hi", 7⟩], [], false, none⟩) := by
  refine ⟨⟨by decide, ?_⟩, by decide, ?_⟩
  · exact claimC7_postMessage.1 sysClosed 0
      ⟨["a", "b"], "i1", "i2", [], ["a", "b"], true, some 5⟩ "a" "hi" 7
      (by decide) (by decide)
  · exact claimC7_postMessage.2 sysOpen 0
      ⟨["a", "b"], "i1", "i2", [], [], false, none⟩ "a" "hi" 7
      (by decide) (by decide)

/-- C10 counterexample: confirming done (as member "a") on the chat of
`sysClosed`, which is already closed with `closedAt = some 5`, RE-STAMPS
`closedAt` to the new call time 9 — the claim that a further confirm-done
leaves `closedAt` unchanged is false on this code. -/
theorem claimC10_counterexample :
    findChat sysClosed 0
      = some ⟨["a", "b"], "i1", "i2", [], ["a", "b"], true, some 5⟩ ∧
    findChat (confirmDone sysClosed 0 "a" 9).1 0
      = some ⟨["a", "b"], "i1", "i2", [], ["a", "b"], true, some 9⟩ ∧
    (some 9 : Option ℕ) ≠ some 5 := by
  refine ⟨by decide, by decide, by decide⟩

/-- C10 amended: once the confirmation set covers the members, a further
confirm-done call by a member leaves the closed flag (true) and the
confirmation set unchanged, but OVERWRITES `closedAt` with the current call
time — the stamp is rewritten on every such call, not only on the open →
closed transition. -/
theorem claimC10_confirmDone_restamp :
    ∀ (s : Sys) (cid : ℕ) (c : ChatE) (caller : String) (now : ℕ),
      findChat s cid = some c → caller ∈ c.members →
      (∀ m ∈ c.members, m ∈ c.doneConfirmations) →
      findChat (confirmDone s cid caller now).1 cid
        = some { c with closed := true, closedAt := some now } := by
  intro s cid c caller now hfind hmem hsub
  have hcd : c.doneConfirmations.contains caller = true :=
    List.elem_iff.mpr (hsub caller hmem)
  have hcm : c.members.contains caller = true := List.elem_iff.mpr hmem
  unfold confirmDone
  rw [hfind]
  dsimp only
  rw [if_pos hcm]
  dsimp only
  rw [findChat_updateChatBy, hfind]
  simp only [Option.map_some']
  unfold applyDone
  dsimp only
  rw [if_pos hcd]
  have hboth : c.members.all (fun m => c.doneConfirmations.contains m) = true :=
    List.all_eq_true.mpr (fun m hm => List.elem_iff.mpr (hsub m hm))
  rw [if_pos hboth, if_pos hboth]

/-- Witness for C10 at a concrete input: member "a" of the already-closed
chat of `sysClosed` confirms again at time 9 and `closedAt` becomes 9. -/
theorem claimC10_confirmDone_restamp_witness :
    findChat sysClosed 0
      = some ⟨["a", "b"], "i1", "i2", [], ["a", "b"], true, some 5⟩ ∧
    ("a" ∈ (["a", "b"] : List String)) ∧
    findChat (confirmDone sysClosed 0 "a" 9).1 0
      = some ⟨["a", "b"], "i1", "i2", [], ["a", "b"], true, some 9⟩ := by
  refine ⟨by decide, by decide, ?_⟩
  exact claimC10_confirmDone_restamp sysClosed 0
    ⟨["a", "b"], "i1", "i2", [], ["a", "b"], true, some 5⟩ "a" 9
    (by decide) (by decide) (by decide)

theorem bandIdxS_le (p : ℚ) : bandIdxS p ≤ 4 := by
  unfold bandIdxS
  repeat' split
  all_goals decide

theorem priceScoreS_bounds (mode : String) {tp op : ℚ} (htp : 0 ≤ tp)
    (hop : 0 ≤ op) :
    0 ≤ priceScoreS mode tp op ∧ priceScoreS mode tp op ≤ 1 := by
  unfold priceScoreS
  dsimp only
  split
  · have ha : (bandIdxS op : ℚ) ≤ 4 := by exact_mod_cast bandIdxS_le op
    have hb : (bandIdxS tp : ℚ) ≤ 4 := by exact_mod_cast bandIdxS_le tp
    have ha0 : (0 : ℚ) ≤ (bandIdxS op : ℚ) := Nat.cast_nonneg _
    have hb0 : (0 : ℚ) ≤ (bandIdxS tp : ℚ) := Nat.cast_nonneg _
    have h4 : |(bandIdxS op : ℚ) - (bandIdxS tp : ℚ)| ≤ 4 := by
      rw [abs_sub_le_iff]
      constructor <;> linarith
    have h0 : 0 ≤ |(bandIdxS op : ℚ) - (bandIdxS tp : ℚ)| := abs_nonneg _
    have hmax : (max 1 4 : ℚ) = 4 := by norm_num
    rw [hmax]
    constructor <;> linarith
  · split
    · norm_num
    · next hne =>
      have hmax0 : 0 ≤ max tp op := le_max_of_le_left htp
      have hmaxpos : 0 < max tp op := lt_of_le_of_ne hmax0 (Ne.symm hne)
      have habs : |tp - op| ≤ max tp op := by
        rw [abs_sub_le_iff]
        constructor
        · have := le_max_left tp op
          linarith
        · have := le_max_right tp op
          linarith
      have h0 : 0 ≤ |tp - op| := abs_nonneg _
      have hdivle : |tp - op| / max tp op ≤ 1 := (div_le_one hmaxpos).mpr habs
      have hdiv0 : 0 ≤ |tp - op| / max tp op := div_nonneg h0 hmax0
      constructor <;> linarith

theorem haversine_nonneg (M : MathPrims) (Hsqrt : ∀ x, 0 ≤ M.sqrt x)
    (Hatan : ∀ y x, 0 ≤ y → 0 ≤ M.atan2 y x) (l1 l2 : Loc) :
    0 ≤ haversineDistance M l1 l2 := by
  unfold haversineDistance
  dsimp only
  exact mul_nonneg (by norm_num)
    (mul_nonneg (by norm_num) (Hatan _ _ (Hsqrt _)))

theorem distScoreS_bounds (M : MathPrims) (Hsqrt : ∀ x, 0 ≤ M.sqrt x)
    (Hatan : ∀ y x, 0 ≤ y → 0 ≤ M.atan2 y x)
    (Hexp : ∀ x, x ≤ 0 → 0 ≤ M.exp x ∧ M.exp x ≤ 1) (g t : Option Loc) :
    0 ≤ distScoreS M g t ∧ distScoreS M g t ≤ 1 := by
  cases g with
  | none => cases t <;> exact ⟨le_refl 0, zero_le_one⟩
  | some gv =>
    cases t with
    | none => exact ⟨le_refl 0, zero_le_one⟩
    | some tv =>
      have hd := haversine_nonneg M Hsqrt Hatan gv tv
      exact Hexp _ (by linarith)

theorem combineWeighted_bounds {w : Weights} (hwd : 0 ≤ w.damage)
    (hwr : 0 ≤ w.rating) (hwp : 0 ≤ w.price) (hwdist : 0 ≤ w.distance)
    (hasD : Bool) {dS rS pS distS : ℚ}
    (hd : 0 ≤ dS ∧ dS ≤ 1) (hr : 0 ≤ rS ∧ rS ≤ 1)
    (hp : 0 ≤ pS ∧ pS ≤ 1) (hdist : 0 ≤ distS ∧ distS ≤ 1) :
    0 ≤ combineWeighted w hasD dS rS pS distS ∧
      combineWeighted w hasD dS rS pS distS ≤ 1 := by
  unfold combineWeighted
  dsimp only
  set wD := if hasD = true then w.distance else 0 with hwD
  have hwD0 : 0 ≤ wD := by
    rw [hwD]
    split
    · exact hwdist
    · exact le_refl 0
  set S := w.damage + w.rating + w.price + wD with hS
  set N := w.damage * dS + w.rating * rS + w.price * pS + wD * distS with hN
  have hS0 : 0 ≤ S := by
    rw [hS]
    have := add_nonneg (add_nonneg hwd hwr) hwp
    linarith
  have hN0 : 0 ≤ N := by
    rw [hN]
    have h1 := mul_nonneg hwd hd.1
    have h2 := mul_nonneg hwr hr.1
    have h3 := mul_nonneg hwp hp.1
    have h4 := mul_nonneg hwD0 hdist.1
    linarith
  have hNS : N ≤ S := by
    rw [hN, hS]
    have h1 : w.damage * dS ≤ w.damage := mul_le_of_le_one_right hwd hd.2
    have h2 : w.rating * rS ≤ w.rating := mul_le_of_le_one_right hwr hr.2
    have h3 : w.price * pS ≤ w.price := mul_le_of_le_one_right hwp hp.2
    have h4 : wD * distS ≤ wD := mul_le_of_le_one_right hwD0 hdist.2
    linarith
  by_cases hz : S = 0
  · rw [if_pos hz]
    have hN0' : N = 0 := le_antisymm (hz ▸ hNS) hN0
    rw [hN0']
    norm_num
  · rw [if_neg hz]
    have hSpos : 0 < S := lt_of_le_of_ne hS0 (Ne.symm hz)
    exact ⟨div_nonneg hN0 hS0, (div_le_one hSpos).mpr hNS⟩

/-- C3 counterexample: the `part_005` scorer, on a VALID input (condition
100 ∈ [0,100], rating 5 ∈ [0,5], equal non-negative prices, non-negative
weights {damage 1, rating 1, price 1, distance 0}, both locations present),
returns 3 — outside [0,1] — because it never divides by the weight sum.
The distance weight is 0, so the value does not depend on the `Math`
primitives (any instance yields 3). -/
theorem claimC3_counterexample :
    evaluateDesire5 M0 ⟨"a", some ⟨0, 0⟩⟩ ⟨"b", 100, 5, 50, none⟩
      ⟨"a", 100, 0, 50, none⟩ (fun _ => some ⟨0, 0⟩) ⟨1, 1, 1, 0⟩ = 3 ∧
    ¬((3 : ℚ) ≤ 1) := by
  constructor
  · norm_num [evaluateDesire5, M0, haversineDistance]
  · norm_num

/-- C3 amended: for every valid input (condition in [0,100], rating in
[0,5], non-negative prices and weights) the NORMALIZED Compatibility Scorer
of `src/server.js` returns a score in [0,1], for any `Math` primitives with
the true ranges (`sqrt ≥ 0`, `atan2 ≥ 0` on non-negative first argument,
`exp` mapping non-positives into [0,1]); the historic `part_005` variant
returns the raw weighted sum and exceeds 1 whenever the weights sum to more
than 1 (see the counterexample). -/
theorem claimC3_scorer_range :
    ∀ (M : MathPrims) (user : UserS) (targetItem ownItem : ItemS)
      (locs : String → Option Loc) (w : Weights) (opts : OptsS),
      (∀ x, 0 ≤ M.sqrt x) →
      (∀ y x, 0 ≤ y → 0 ≤ M.atan2 y x) →
      (∀ x, x ≤ 0 → 0 ≤ M.exp x ∧ M.exp x ≤ 1) →
      0 ≤ targetItem.condition → targetItem.condition ≤ 100 →
      0 ≤ targetItem.rating → targetItem.rating ≤ 5 →
      0 ≤ targetItem.price → 0 ≤ ownItem.price →
      0 ≤ w.damage → 0 ≤ w.rating → 0 ≤ w.price → 0 ≤ w.distance →
      0 ≤ evaluateDesireS M user targetItem ownItem locs w opts ∧
        evaluateDesireS M user targetItem ownItem locs w opts ≤ 1 := by
  intro M user targetItem ownItem locs w opts Hsqrt Hatan Hexp hc0 hc100 hr0
    hr5 htp hop hwd hwr hwp hwdist
  unfold evaluateDesireS
  dsimp only
  refine combineWeighted_bounds hwd hwr hwp hwdist _ ?_ ?_ ?_ ?_
  · constructor <;> [linarith; linarith]
  · constructor <;> [linarith; linarith]
  · exact priceScoreS_bounds opts.priceMode htp hop
  · exact distScoreS_bounds M Hsqrt Hatan Hexp user.gps (locs targetItem.userId)

/-- Witness for C3 at a concrete valid input (no locations, default-like
weights, diff mode), with the all-zero stand-in `M0` — which satisfies all
three range hypotheses. -/
theorem claimC3_scorer_range_witness :
    (∀ x, 0 ≤ M0.sqrt x) ∧ (∀ y x, 0 ≤ y → 0 ≤ M0.atan2 y x) ∧
    (∀ x, x ≤ 0 → 0 ≤ M0.exp x ∧ M0.exp x ≤ 1) ∧
    (0 ≤ evaluateDesireS M0 ⟨"a", none⟩ ⟨"b", 80, 4, 120, none⟩
        ⟨"a", 90, 0, 100, none⟩ (fun _ => none) ⟨25, 25, 25, 25⟩
        ⟨"diff", false⟩ ∧
      evaluateDesireS M0 ⟨"a", none⟩ ⟨"b", 80, 4, 120, none⟩
        ⟨"a", 90, 0, 100, none⟩ (fun _ => none) ⟨25, 25, 25, 25⟩
        ⟨"diff", false⟩ ≤ 1) := by
  refine ⟨fun x => le_refl 0, fun y x _ => le_refl 0,
    fun x _ => ⟨le_refl 0, zero_le_one⟩, ?_⟩
  exact claimC3_scorer_range M0 ⟨"a", none⟩ ⟨"b", 80, 4, 120, none⟩
    ⟨"a", 90, 0, 100, none⟩ (fun _ => none) ⟨25, 25, 25, 25⟩ ⟨"diff", false⟩
    (fun x => le_refl 0) (fun y x _ => le_refl 0)
    (fun x _ => ⟨le_refl 0, zero_le_one⟩)
    (by norm_num) (by norm_num) (by norm_num) (by norm_num) (by norm_num)
    (by norm_num) (by norm_num) (by norm_num) (by norm_num) (by norm_num)

theorem combineWeighted_noDistance {w : Weights} (hwd : 0 ≤ w.damage)
    (hwr : 0 ≤ w.rating) (hwp : 0 ≤ w.price) (dS rS pS distS : ℚ) :
    combineWeighted w false dS rS pS distS
      = if w.damage + w.rating + w.price = 0 then 0
        else (w.damage * dS + w.rating * rS + w.price * pS)
          / (w.damage + w.rating + w.price) := by
  unfold combineWeighted
  dsimp only
  simp only [Bool.false_eq_true, if_false, zero_mul, add_zero]
  split
  · next hz =>
    have hd0 : w.damage = 0 := le_antisymm (by linarith) hwd
    have hr0 : w.rating = 0 := le_antisymm (by linarith) hwr
    have hp0 : w.price = 0 := le_antisymm (by linarith) hwp
    rw [hd0, hr0, hp0]
    norm_num
  · rfl

/-- C4 counterexample: for the `src/recommend.js` scorer, with the
candidate owner's location missing (distance not computable), condition
100, rating 5, equal prices 50 and no search history, the claim predicts
the renormalized remaining score
`(1·(100/100) + 1·(5/5) + 1·0 + 1·(1 − 0/50)) / (1+1+1+1) = 3/4`, but the
code returns 0 outright (`if (!targetLoc) return 0`). -/
theorem claimC4_counterexample :
    evaluateDesireRec M0 ⟨"a", ⟨0, 0⟩, []⟩ ⟨"b", "x", [], 100, 5, 50⟩
      ⟨"a", "y", [], 100, 0, 50⟩ (fun _ => none) "" = 0 ∧
    (1 * ((100 : ℚ) / 100) + 1 * ((5 : ℚ) / 5) + 1 * (0 : ℚ)
        + 1 * (1 - 0 / 50)) / (1 + 1 + 1 + 1) = 3 / 4 ∧
    (0 : ℚ) ≠ 3 / 4 := by
  refine ⟨rfl, by norm_num, by norm_num⟩

/-- C4 amended: in the `src/server.js` and `part_004` scorers the claim
holds as stated — when the distance component is not computable the
distance weight is treated as 0 and the score is the weighted sum of the
remaining components over the sum of the remaining weights, with a zero
remaining weight sum giving denominator 1 and score 0; the `recommend.js`
variant instead returns 0 outright when the candidate owner's location is
missing. -/
theorem claimC4_missing_distance :
    (∀ (M : MathPrims) (user : UserS) (targetItem ownItem : ItemS)
        (locs : String → Option Loc) (w : Weights) (opts : OptsS),
        0 ≤ w.damage → 0 ≤ w.rating → 0 ≤ w.price →
        (user.gps = none ∨ locs targetItem.userId = none) →
        evaluateDesireS M user targetItem ownItem locs w opts
          = if w.damage + w.rating + w.price = 0 then 0
            else (w.damage * (targetItem.condition / 100)
              + w.rating * (targetItem.rating / 5)
              + w.price * priceScoreS opts.priceMode targetItem.price ownItem.price)
              / (w.damage + w.rating + w.price)) ∧
    (∀ (M : MathPrims) (user : User4) (targetItem ownItem : Item4)
        (locs : String → Option Loc) (w : Weights) (opts : Opts4),
        0 ≤ w.damage → 0 ≤ w.rating → 0 ≤ w.price →
        (locs user.email = none ∨ locs targetItem.email = none) →
        evaluateDesire4 M user targetItem ownItem locs w opts
          = if w.damage + w.rating + w.price = 0 then 0
            else (w.damage * (targetItem.condition / 100)
              + w.rating * (1 / 2)
              + w.price * priceScore4 opts targetItem.price ownItem.price)
              / (w.damage + w.rating + w.price)) := by
  constructor
  · intro M user targetItem ownItem locs w opts hwd hwr hwp hmiss
    unfold evaluateDesireS
    dsimp only
    have hfalse : (user.gps.isSome && (locs targetItem.userId).isSome) = false := by
      rcases hmiss with h | h <;> rw [h] <;> simp
    rw [hfalse]
    exact combineWeighted_noDistance hwd hwr hwp _ _ _ _
  · intro M user targetItem ownItem locs w opts hwd hwr hwp hmiss
    unfold evaluateDesire4
    dsimp only
    have hfalse : ((locs user.email).isSome && (locs targetItem.email).isSome) = false := by
      rcases hmiss with h | h <;> rw [h] <;> simp
    rw [hfalse]
    exact combineWeighted_noDistance hwd hwr hwp _ _ _ _

/-- Witness for C4 at concrete inputs: the server.js scorer with no
evaluator GPS, and the part_004 scorer with an empty location table, each
with non-negative weights. -/
theorem claimC4_missing_distance_witness :
    ((0 : ℚ) ≤ 2 ∧ (0 : ℚ) ≤ 3 ∧ (0 : ℚ) ≤ 5) ∧
    ((⟨"a", none⟩ : UserS).gps = none ∨
      (fun _ : String => (none : Option Loc)) "b" = none) ∧
    (evaluateDesireS M0 ⟨"a", none⟩ ⟨"b", 80, 4, 120, none⟩ ⟨"a", 90, 0, 100, none⟩
        (fun _ => none) ⟨2, 3, 5, 7⟩ ⟨"diff", false⟩
      = if (2 : ℚ) + 3 + 5 = 0 then 0
        else (2 * ((80 : ℚ) / 100) + 3 * ((4 : ℚ) / 5)
          + 5 * priceScoreS "diff" 120 100) / (2 + 3 + 5)) ∧
    (evaluateDesire4 M0 ⟨"a"⟩ ⟨"b", "tb", [], 80, 120, none⟩
        ⟨"a", "ta", [], 90, 100, none⟩ (fun _ => none) ⟨2, 3, 5, 7⟩
        ⟨"tolerance", 40, false⟩
      = if (2 : ℚ) + 3 + 5 = 0 then 0
        else (2 * ((80 : ℚ) / 100) + 3 * ((1 : ℚ) / 2)
          + 5 * priceScore4 ⟨"tolerance", 40, false⟩ 120 100) / (2 + 3 + 5)) := by
  refine ⟨⟨by norm_num, by norm_num, by norm_num⟩, Or.inl rfl, ?_, ?_⟩
  · exact claimC4_missing_distance.1 M0 ⟨"a", none⟩ ⟨"b", 80, 4, 120, none⟩
      ⟨"a", 90, 0, 100, none⟩ (fun _ => none) ⟨2, 3, 5, 7⟩ ⟨"diff", false⟩
      (by norm_num) (by norm_num) (by norm_num) (Or.inl rfl)
  · exact claimC4_missing_distance.2 M0 ⟨"a"⟩ ⟨"b", "tb", [], 80, 120, none⟩
      ⟨"a", "ta", [], 90, 100, none⟩ (fun _ => none) ⟨2, 3, 5, 7⟩
      ⟨"tolerance", 40, false⟩ (by norm_num) (by norm_num) (by norm_num)
      (Or.inl rfl)

/-- C5 counterexample: `recommendAllMatches` of `src/recommend.js` SIGNALS
AN ERROR (it throws "找不到登入使用者") for a requester absent from the user
directory, instead of returning an empty list. -/
theorem claimC5_counterexample :
    recommendAllMatchesE M0 "u" [] [] (fun _ => none) ""
      = Except.error "找不到登入使用者" ∧
    recommendAllMatchesE M0 "u" [] [] (fun _ => none) ""
      ≠ Except.ok [] := by
  constructor
  · rfl
  · intro h
    rw [show recommendAllMatchesE M0 "u" [] [] (fun _ => none) ""
      = Except.error "找不到登入使用者" from rfl] at h
    exact Except.noConfusion h

/-- C5 amended: `recommendSwaps` of `src/server.js` (and the `part_004`
variant) returns an empty list, without signalling an error, whenever the
requester does not resolve to a known user; the `recommend.js`
`recommendAllMatches` variant instead throws an error for an unknown
requester. -/
theorem claimC5_unknown_requester :
    (∀ (M : MathPrims) (uid : String) (users : List UserS) (items : List ItemS)
        (locs : String → Option Loc) (w : Weights) (opts : OptsS),
        users.find? (fun u => u.userId == uid) = none →
        recommendSwapsS M uid users items locs w opts = []) ∧
    (∀ (M : MathPrims) (email : String) (users : List User4) (items : List Item4)
        (locs : String → Option Loc) (w : Weights) (opts : Opts4),
        users.find? (fun u => u.email == email) = none →
        recommendSwaps4 M email users items locs w opts = []) ∧
    (∀ (M : MathPrims) (uid : String) (users : List UserR) (items : List ItemR)
        (locs : String → Option Loc) (preference : String),
        users.find? (fun u => u.userId == uid) = none →
        recommendAllMatchesE M uid users items locs preference
          = Except.error "找不到登入使用者") := by
  refine ⟨?_, ?_, ?_⟩
  · intro M uid users items locs w opts h
    unfold recommendSwapsS
    rw [h]
  · intro M email users items locs w opts h
    unfold recommendSwaps4
    rw [h]
  · intro M uid users items locs preference h
    unfold recommendAllMatchesE
    rw [h]

/-- Witness for C5 at a concrete input: the empty catalog, where the
requester is unknown. -/
theorem claimC5_unknown_requester_witness :
    (List.find? (fun u => u.userId == "u") ([] : List UserS) = none) ∧
    recommendSwapsS M0 "u" [] [] (fun _ => none) ⟨25, 25, 25, 25⟩
      ⟨"diff", false⟩ = [] ∧
    recommendSwaps4 M0 "u" [] [] (fun _ => none) ⟨25, 25, 25, 25⟩
      ⟨"tolerance", 0, false⟩ = [] := by
  refine ⟨rfl, ?_, ?_⟩
  · exact claimC5_unknown_requester.1 M0 "u" [] [] (fun _ => none)
      ⟨25, 25, 25, 25⟩ ⟨"diff", false⟩ rfl
  · exact claimC5_unknown_requester.2.1 M0 "u" [] [] (fun _ => none)
      ⟨25, 25, 25, 25⟩ ⟨"tolerance", 0, false⟩ rfl

/-- C9: every list returned by the swap enumerators (`src/server.js` and
`part_004`) is ordered with non-increasing `matchScore` from first to
last. -/
theorem claimC9_sorted_output :
    (∀ (M : MathPrims) (uid : String) (users : List UserS) (items : List ItemS)
        (locs : String → Option Loc) (w : Weights) (opts : OptsS),
        List.Pairwise (fun a b : RecS => b.matchScore ≤ a.matchScore)
          (recommendSwapsS M uid users items locs w opts)) ∧
    (∀ (M : MathPrims) (email : String) (users : List User4) (items : List Item4)
        (locs : String → Option Loc) (w : Weights) (opts : Opts4),
        List.Pairwise (fun a b : Rec4 => b.matchScore ≤ a.matchScore)
          (recommendSwaps4 M email users items locs w opts)) := by
  constructor
  · intro M uid users items locs w opts
    unfold recommendSwapsS
    cases users.find? (fun u => u.userId == uid) with
    | none => exact List.Pairwise.nil
    | some userA =>
      dsimp only
      exact pairwise_sortDesc RecS.matchScore _
  · intro M email users items locs w opts
    unfold recommendSwaps4
    cases users.find? (fun u => u.email == email) with
    | none => exact List.Pairwise.nil
    | some userA =>
      dsimp only
      split
      · exact List.Pairwise.nil
      · exact pairwise_sortDesc Rec4.matchScore _

/-- C8: in tolerance price mode, (a) every record emitted by the `part_004`
enumerator comes from a pair whose raw absolute price delta is within the
(clamped) tolerance — pairs beyond it are skipped before scoring; (b) the
scorer's price component equals `max(0, 1 − |Δ|/T)` for `T > 0` and is the
equality indicator for `T = 0`. -/
theorem claimC8_tolerance_mode :
    (∀ (M : MathPrims) (currentEmail : String) (users : List User4)
        (items : List Item4) (locs : String → Option Loc) (w : Weights)
        (opts : Opts4) (r : Rec4),
        opts.priceMode = "tolerance" →
        r ∈ recommendSwaps4 M currentEmail users items locs w opts →
        |r.fromItem.price - r.toItem.price| ≤ max 0 opts.priceTol) ∧
    (∀ (opts : Opts4) (priceA priceB : ℚ),
        opts.priceMode = "tolerance" → 0 ≤ opts.priceTol →
        priceScore4 opts priceA priceB
          = if 0 < opts.priceTol
            then max 0 (1 - |priceA - priceB| / opts.priceTol)
            else if priceA = priceB then 1 else 0) := by
  constructor
  · intro M currentEmail users items locs w opts r hmode hmem
    unfold recommendSwaps4 at hmem
    cases hfind : users.find? (fun u => u.email == currentEmail) with
    | none =>
      rw [hfind] at hmem
      exact absurd hmem (List.not_mem_nil r)
    | some userA =>
      rw [hfind] at hmem
      dsimp only at hmem
      split at hmem
      · exact absurd hmem (List.not_mem_nil r)
      · rw [mem_sortDesc] at hmem
        rcases List.mem_flatMap.mp hmem with ⟨userB, huB, hmem1⟩
        split at hmem1
        · exact absurd hmem1 (List.not_mem_nil r)
        · rcases List.mem_flatMap.mp hmem1 with ⟨itemA, hA, hmem2⟩
          rcases List.mem_flatMap.mp hmem2 with ⟨itemB, hB, hmem3⟩
          split at hmem3
          · exact absurd hmem3 (List.not_mem_nil r)
          · split at hmem3
            · exact absurd hmem3 (List.not_mem_nil r)
            · next hguard =>
              rcases List.mem_singleton.mp hmem3 with rfl
              have hnot : ¬ (max 0 opts.priceTol < |itemA.price - itemB.price|) :=
                fun hlt => hguard ⟨hmode, hlt⟩
              exact le_of_not_lt hnot
  · intro opts priceA priceB hmode htol
    unfold priceScore4
    rw [if_pos hmode]
    dsimp only
    rw [max_eq_right htol]
    by_cases hpos : 0 < opts.priceTol
    · rw [if_pos hpos, if_pos hpos]
    · rw [if_neg hpos, if_neg hpos]
      by_cases heq : priceA = priceB
      · rw [if_pos (by rw [heq, sub_self, abs_zero]), if_pos heq]
      · rw [if_neg (fun h => heq (sub_eq_zero.mp (abs_eq_zero.mp h))),
          if_neg heq]

theorem recommendSwaps4_concrete :
    recommendSwaps4 M0 "a" [⟨"a"⟩, ⟨"b"⟩] [itemA8, itemB8]
      (fun _ => none) ⟨0, 0, 0, 0⟩ ⟨"tolerance", 100, false⟩ = [rec8] := by
  norm_num [recommendSwaps4, itemA8, itemB8, rec8, evaluateDesire4,
    combineWeighted, priceScore4, distScore4, round3, sortDesc, insertDesc,
    List.filter_cons, List.filter_nil, List.flatMap_cons, List.flatMap_nil]
  have hne1 : ¬("b" : String) = "a" := by decide
  have hne2 : ¬("a" : String) = "b" := by decide
  rw [if_neg hne1, if_neg hne2]
  norm_num [sortDesc, insertDesc]

/-- Witness for C8 at concrete inputs: tolerance 100, prices 10 and 20; the
emitted record respects the pre-filter bound, and the price component
formula is evaluated at the same prices. -/
theorem claimC8_tolerance_mode_witness :
    ((⟨"tolerance", 100, false⟩ : Opts4).priceMode = "tolerance") ∧
    rec8 ∈ recommendSwaps4 M0 "a" [⟨"a"⟩, ⟨"b"⟩] [itemA8, itemB8]
      (fun _ => none) ⟨0, 0, 0, 0⟩ ⟨"tolerance", 100, false⟩ ∧
    |rec8.fromItem.price - rec8.toItem.price|
      ≤ max 0 (⟨"tolerance", 100, false⟩ : Opts4).priceTol ∧
    ((0 : ℚ) ≤ (⟨"tolerance", 100, false⟩ : Opts4).priceTol) ∧
    priceScore4 ⟨"tolerance", 100, false⟩ 10 20
      = if (0 : ℚ) < (⟨"tolerance", 100, false⟩ : Opts4).priceTol
        then max 0 (1 - |(10 : ℚ) - 20| / (⟨"tolerance", 100, false⟩ : Opts4).priceTol)
        else if (10 : ℚ) = 20 then 1 else 0 := by
  have hmem : rec8 ∈ recommendSwaps4 M0 "a" [⟨"a"⟩, ⟨"b"⟩] [itemA8, itemB8]
      (fun _ => none) ⟨0, 0, 0, 0⟩ ⟨"tolerance", 100, false⟩ := by
    rw [recommendSwaps4_concrete]
    exact List.mem_singleton.mpr rfl
  refine ⟨rfl, hmem, ?_, by norm_num, ?_⟩
  · exact claimC8_tolerance_mode.1 M0 "a" [⟨"a"⟩, ⟨"b"⟩] [itemA8, itemB8]
      (fun _ => none) ⟨0, 0, 0, 0⟩ ⟨"tolerance", 100, false⟩ rec8 rfl hmem
  · exact claimC8_tolerance_mode.2 ⟨"tolerance", 100, false⟩ 10 20 rfl (by norm_num)
